import Mathlib

/-!
Verification of the enrollment & roster subsystem of the dillar-academy-web
backend (Express + Mongoose). The definitions below are a shallow embedding
of the route handlers in `api/index.js` (enroll/unenroll),
`server/routes/user-routes.js` (cascade user delete, students-with-classes
listing, allowSelfOrPriv, escapeRx) and `server/routes/class-routes.js`
(class creation duplicate detection, cascade class delete and its
conversation variant), over the document shapes of `server/schemas/User.js`
and `server/schemas/Class.js`.

Mongo collections are modelled as lists of documents; ObjectIds as strings
with mongoose's validity test; `$addToSet` as add-if-absent at the end;
`$pull` as filtering out every occurrence. Each handler is a pure function
from a database state (plus request parameters) to a new state and a result
that stands for the HTTP response chosen by the handler.
-/

set_option maxRecDepth 4000

/-! ## Document shapes (server/schemas/User.js, server/schemas/Class.js) -/

/-- A schedule entry: `{day, startTime, endTime, timezone}` from the
ScheduleSchema in `server/schemas/Class.js`. -/
structure ScheduleEntry where
  day : String
  startTime : String
  endTime : String
  timezone : String
deriving DecidableEq, Repr

/-- The polymorphic `level` field of a Class: a number or a sentinel string
(`"conversation"` / `"ielts"`), per the Mixed-typed `level` in
`server/schemas/Class.js`. -/
inductive LevelVal where
  | num (n : Int)
  | str (s : String)
deriving DecidableEq, Repr

/-- A User document (`server/schemas/User.js`), restricted to the fields the
membership and listing subsystem reads. -/
structure UserDoc where
  id : String
  firstName : String
  lastName : String
  email : String
  clerkId : String
  privilege : String
  enrolledClasses : List String
deriving DecidableEq, Repr

/-- A Class document (`server/schemas/Class.js`). -/
structure ClassDoc where
  id : String
  level : LevelVal
  ageGroup : String
  instructor : String
  image : String
  link : String
  schedule : List ScheduleEntry
  roster : List String
  isEnrollmentOpen : Bool
deriving DecidableEq, Repr

/-- The two collections the membership subsystem touches. -/
structure DB where
  users : List UserDoc
  classes : List ClassDoc
deriving DecidableEq, Repr

/-- `mongoose.Types.ObjectId.isValid`: a 24-character hex string, or any
12-character string. -/
def isHexCh (c : Char) : Bool :=
  c.isDigit || ('a' ≤ c && c ≤ 'f') || ('A' ≤ c && c ≤ 'F')

def isValidOid (s : String) : Bool :=
  (s.length == 24 && s.data.all isHexCh) || s.length == 12

/-- Mongo `$addToSet`: append the element if it is absent. -/
def addToSet (l : List String) (a : String) : List String :=
  if a ∈ l then l else l ++ [a]

/-- Mongo `$pull`: remove every occurrence of the element. -/
def pull (l : List String) (a : String) : List String :=
  l.filter (fun x => x != a)

theorem mem_addToSet {l : List String} {a x : String} :
    x ∈ addToSet l a ↔ x ∈ l ∨ x = a := by
  unfold addToSet
  split
  · constructor
    · exact fun h => Or.inl h
    · rintro (h | rfl) <;> assumption
  · simp [List.mem_append]

theorem mem_pull {l : List String} {a x : String} :
    x ∈ pull l a ↔ x ∈ l ∧ x ≠ a := by
  unfold pull
  simp [List.mem_filter]

/-! ## Enroll / Unenroll (api/index.js, PUT /api/users/:id/enroll and
PUT /api/users/:id/unenroll) -/

/-- Outcome of the enroll handler: 400 invalid id, 500 (missing user or
invalid classId cast), 400 already enrolled, 404 class not found,
403 enrollment closed, 201 enrolled. -/
inductive EnrollR where
  | invalidId
  | serverError
  | alreadyEnrolled
  | classNotFound
  | enrollClosed
  | enrolled
deriving DecidableEq, Repr

/-- Outcome of the unenroll handler. -/
inductive UnenrollR where
  | invalidId
  | serverError
  | notEnrolled
  | unenrolled
deriving DecidableEq, Repr

/-- The user-side write of a completed enroll:
`User.findByIdAndUpdate(id, { $addToSet: { enrolledClasses: classId } })`. -/
def enrollUserUpd (uid cid : String) (u : UserDoc) : UserDoc :=
  if u.id = uid then { u with enrolledClasses := addToSet u.enrolledClasses cid } else u

/-- The class-side write of a completed enroll:
`Class.findByIdAndUpdate(classId, { $addToSet: { roster: id } })`. -/
def enrollClassUpd (uid cid : String) (c : ClassDoc) : ClassDoc :=
  if c.id = cid then { c with roster := addToSet c.roster uid } else c

/-- `PUT /api/users/:id/enroll` (api/index.js lines 290-318). A missing user
makes `user.enrolledClasses` throw, caught as a 500; an invalid `classId`
makes `Class.findById` throw a cast error, caught as a 500. -/
def enroll (db : DB) (uid cid : String) : DB × EnrollR :=
  if !(isValidOid uid) then (db, .invalidId)
  else
    match db.users.find? (fun u => u.id == uid) with
    | none => (db, .serverError)
    | some user =>
      if cid ∈ user.enrolledClasses then (db, .alreadyEnrolled)
      else if !(isValidOid cid) then (db, .serverError)
      else
        match db.classes.find? (fun c => c.id == cid) with
        | none => (db, .classNotFound)
        | some cls =>
          if !(cls.isEnrollmentOpen) then (db, .enrollClosed)
          else
            ({ users := db.users.map (enrollUserUpd uid cid),
               classes := db.classes.map (enrollClassUpd uid cid) },
             .enrolled)

/-- The user-side write of a completed unenroll (`$pull` on enrolledClasses). -/
def unenrollUserUpd (uid cid : String) (u : UserDoc) : UserDoc :=
  if u.id = uid then { u with enrolledClasses := pull u.enrolledClasses cid } else u

/-- The class-side write of a completed unenroll (`$pull` on roster). -/
def unenrollClassUpd (uid cid : String) (c : ClassDoc) : ClassDoc :=
  if c.id = cid then { c with roster := pull c.roster uid } else c

/-- `PUT /api/users/:id/unenroll` (api/index.js lines 321-342). -/
def unenroll (db : DB) (uid cid : String) : DB × UnenrollR :=
  if !(isValidOid uid) then (db, .invalidId)
  else
    match db.users.find? (fun u => u.id == uid) with
    | none => (db, .serverError)
    | some user =>
      if cid ∉ user.enrolledClasses then (db, .notEnrolled)
      else
        ({ users := db.users.map (unenrollUserUpd uid cid),
           classes := db.classes.map (unenrollClassUpd uid cid) },
         .unenrolled)

/-! ## Cascade deletes -/

/-- Outcome of a delete handler: 400, 404, 500 (a cleanup write failed), 204. -/
inductive DeleteR where
  | invalidId
  | notFound
  | serverError
  | deleted
deriving DecidableEq, Repr

/-- Roster cleanup of the user cascade delete: for each class id in the
user's `enrolledClasses`, `Class.findByIdAndUpdate(classId, { $pull:
{ roster: id } })`; `failsC` says which of those independent writes fail. -/
def userCascadeClassUpd (failsC : String → Bool) (enrolled : List String)
    (uid : String) (c : ClassDoc) : ClassDoc :=
  if c.id ∈ enrolled ∧ failsC c.id = false then { c with roster := pull c.roster uid } else c

/-- `DELETE /user/:id` (server/routes/user-routes.js lines 190-219). The
per-class removals run under `Promise.all`, each with a `.catch` that logs
and rethrows, so every removal is attempted and any failure rejects the
whole `Promise.all`; in that case the handler answers 500 and never reaches
`User.findByIdAndDelete`. -/
def deleteUserF (failsC : String → Bool) (db : DB) (uid : String) : DB × DeleteR :=
  if !(isValidOid uid) then (db, .invalidId)
  else
    match db.users.find? (fun u => u.id == uid) with
    | none => (db, .notFound)
    | some user =>
      if user.enrolledClasses.any failsC then
        ({ db with classes := db.classes.map (userCascadeClassUpd failsC user.enrolledClasses uid) },
         .serverError)
      else
        ({ users := db.users.filter (fun u => u.id != uid),
           classes := db.classes.map (userCascadeClassUpd failsC user.enrolledClasses uid) },
         .deleted)

/-- `DELETE /user/:id` with every cleanup write succeeding. -/
def deleteUser (db : DB) (uid : String) : DB × DeleteR :=
  deleteUserF (fun _ => false) db uid

/-- Enrollment cleanup of the class cascade delete: for each user id in the
class's roster, `User.findByIdAndUpdate(studentId, { $pull:
{ enrolledClasses: id } })`. -/
def classCascadeUserUpd (failsU : String → Bool) (roster : List String)
    (cid : String) (u : UserDoc) : UserDoc :=
  if u.id ∈ roster ∧ failsU u.id = false then { u with enrolledClasses := pull u.enrolledClasses cid } else u

/-- `DELETE /classes/:id` (server/routes/class-routes.js lines 192-220).
As in the user delete, each removal's `.catch` rethrows, so a failure makes
the handler answer 500 before `Class.findByIdAndDelete`. -/
def deleteClassF (failsU : String → Bool) (db : DB) (cid : String) : DB × DeleteR :=
  if !(isValidOid cid) then (db, .invalidId)
  else
    match db.classes.find? (fun c => c.id == cid) with
    | none => (db, .notFound)
    | some cls =>
      if cls.roster.any failsU then
        ({ db with users := db.users.map (classCascadeUserUpd failsU cls.roster cid) }, .serverError)
      else
        ({ users := db.users.map (classCascadeUserUpd failsU cls.roster cid),
           classes := db.classes.filter (fun c => c.id != cid) }, .deleted)

/-- `DELETE /classes/:id` with every cleanup write succeeding. -/
def deleteClass (db : DB) (cid : String) : DB × DeleteR :=
  deleteClassF (fun _ => false) db cid

/-- `DELETE /conversations/:id` (server/routes/class-routes.js lines
348-374). Unlike the user and class deletes, each removal's `.catch` only
calls `console.error` and does not rethrow, so `Promise.all` always
resolves and `Class.findByIdAndDelete` runs even when removals failed.
`DELETE /ielts/:id` (lines 501-527) is identical with level "ielts". -/
def deleteConversationF (failsU : String → Bool) (db : DB) (cid : String) : DB × DeleteR :=
  if !(isValidOid cid) then (db, .invalidId)
  else
    match db.classes.find? (fun c => c.id == cid && c.level == LevelVal.str "conversation") with
    | none => (db, .notFound)
    | some cls =>
      ({ users := db.users.map (classCascadeUserUpd failsU cls.roster cid),
         classes := db.classes.filter (fun c => c.id != cid) }, .deleted)

/-! ## The bidirectional roster invariant -/

/-- For all Users u and Classes c, `c.id ∈ u.enrolledClasses ⟺ u.id ∈
c.roster` (spec §4.1 / §8). -/
def RosterInv (db : DB) : Prop :=
  ∀ u ∈ db.users, ∀ c ∈ db.classes, (c.id ∈ u.enrolledClasses ↔ u.id ∈ c.roster)

/-! ## escapeRx and the search regex (server/routes/user-routes.js line 48
and lines 275-277)

The handler builds `new RegExp(escapeRx(q.trim()), "i")` and lets Mongo test
it against a field, which holds exactly when some substring of the field
matches the pattern. We model the fragment of JS regex syntax reachable
from these patterns: literal characters, backslash-escaped characters, `.`,
and a `*` quantifier on the previous atom (the last two are what an
unescaped query could inject). The `i` flag is modelled by lowercasing both
the pattern's literals and the subject. -/

/-- A regex atom: a literal character or `.` (any character). -/
inductive RChar where
  | lit (c : Char)
  | dot
deriving DecidableEq, Repr

/-- A compiled pattern item: an atom matched once, or starred. -/
inductive RItem where
  | once (a : RChar)
  | star (a : RChar)
deriving DecidableEq, Repr

/-- The atom denoted by an unescaped pattern character. -/
def atomOf (c : Char) : RChar :=
  if c = '.' then RChar.dot else RChar.lit c

/-- Compile a pattern string (as characters) in the modelled fragment.
`none` for the syntax errors a malformed pattern would raise (dangling
backslash, leading `*`). A backslash escapes the next character into a
literal atom; a `*` after an atom stars it. -/
def parseP : List Char → Option (List RItem)
  | [] => some []
  | c :: rest =>
    if c = '*' then none
    else if c = '\\' then
      match rest with
      | [] => none
      | d :: rest2 =>
        match rest2 with
        | [] => some [RItem.once (RChar.lit d)]
        | e :: rest3 =>
          if e = '*' then (parseP rest3).map (fun r => RItem.star (RChar.lit d) :: r)
          else (parseP (e :: rest3)).map (fun r => RItem.once (RChar.lit d) :: r)
    else
      match rest with
      | [] => some [RItem.once (atomOf c)]
      | e :: rest3 =>
        if e = '*' then (parseP rest3).map (fun r => RItem.star (atomOf c) :: r)
        else (parseP (e :: rest3)).map (fun r => RItem.once (atomOf c) :: r)

/-- Does an atom match one character. -/
def charMatch : RChar → Char → Bool
  | .lit c, d => c == d
  | .dot, _ => true

/-- Zero-or-more repetitions of atom `a` followed by a match of the
continuation `m`. -/
def starLoop (m : List Char → Bool) (a : RChar) : List Char → Bool
  | [] => m []
  | c :: s => m (c :: s) || (charMatch a c && starLoop m a s)

/-- Does some prefix of `s` match the compiled pattern. -/
def matchPre : List RItem → List Char → Bool
  | [], _ => true
  | RItem.once _ :: _, [] => false
  | RItem.once a :: rest, c :: s => charMatch a c && matchPre rest s
  | RItem.star a :: rest, s => starLoop (matchPre rest) a s

/-- `RegExp.test`: does some substring of `s` match the pattern (try every
start position). -/
def rtest (items : List RItem) : List Char → Bool
  | [] => matchPre items []
  | c :: s => matchPre items (c :: s) || rtest items s

/-- The metacharacter class of `escapeRx` (server/routes/user-routes.js
line 48): dash, slash, backslash, caret, dollar, star, plus, question mark,
dot, parentheses, pipe, square brackets, braces. -/
def rxMeta (c : Char) : Bool :=
  c = '-' || c = '/' || c = '\\' || c = '^' || c = '$' || c = '*' || c = '+' ||
  c = '?' || c = '.' || c = '(' || c = ')' || c = '|' || c = '[' || c = ']' ||
  c = '\x7b' || c = '\x7d'

/-- `escapeRx`: put a backslash before every metacharacter. -/
def escapeRx : List Char → List Char
  | [] => []
  | c :: rest => (if rxMeta c then ['\\', c] else [c]) ++ escapeRx rest

def lowerL (l : List Char) : List Char := l.map Char.toLower

/-- The case-insensitive escaped-regex field test the handlers use:
`new RegExp(escapeRx(q), "i").test(s)`. -/
def imatchS (q s : String) : Bool :=
  match parseP (escapeRx (lowerL q.data)) with
  | some items => rtest items (lowerL s.data)
  | none => false

/-- Literal prefix test (spec-side definition of "substring occurrence"). -/
def prefB : List Char → List Char → Bool
  | [], _ => true
  | _ :: _, [] => false
  | a :: l, b :: m => a == b && prefB l m

/-- Literal substring test (spec-side): `q` occurs contiguously in `s`. -/
def substrB (q : List Char) : List Char → Bool
  | [] => prefB q []
  | c :: s => prefB q (c :: s) || substrB q s

/-! ## The students-with-classes listing (server/routes/user-routes.js
lines 250-314) -/

/-- `Math.max(1, Math.min(200, Number(req.query.limit) || 100))`; an absent
or zero (falsy) limit falls back to 100. -/
def toLimit (q : Option Nat) : Nat :=
  max 1 (min 200 (match q with | none => 100 | some 0 => 100 | some n => n))

/-- `Math.max(1, Number(req.query.page) || 1)`. -/
def toPage (q : Option Nat) : Nat :=
  max 1 (match q with | none => 1 | some 0 => 1 | some n => n)

/-- `.skip((page-1)*limit).limit(limit)` applied to the sorted matching
list `o`. -/
def swcItems (o : List UserDoc) (pageQ limitQ : Option Nat) : List UserDoc :=
  (o.drop ((toPage pageQ - 1) * toLimit limitQ)).take (toLimit limitQ)

/-- Ids of the classes whose `level` equals the (coerced) level filter:
`Class.find({ level: parsed }).select("_id")` (lines 265-266). -/
def levelClassIds (db : DB) (l : LevelVal) : List String :=
  (db.classes.filter (fun c => c.level == l)).map (fun c => c.id)

/-- Ids of the classes whose instructor or ageGroup matches the query:
`Class.find({ $or: [{ instructor: rx }, { ageGroup: rx }] })` (line 279). -/
def qClassIds (db : DB) (q : String) : List String :=
  (db.classes.filter (fun c => imatchS q c.instructor || imatchS q c.ageGroup)).map (fun c => c.id)

/-- The `$or` over first name, last name, email (line 277). -/
def qMatchUser (q : String) (u : UserDoc) : Bool :=
  imatchS q u.firstName || imatchS q u.lastName || imatchS q u.email

/-- The final user filter of lines 287-293, given the level-class id list
when a level filter is active. The `q` conjunct on class ids is only added
when some class matched the query (`if (qIds.length)`, line 283). -/
def swcFilter (db : DB) (levelIds : Option (List String)) (q : Option String) : List UserDoc :=
  let qIds := match q with | some s => qClassIds db s | none => []
  db.users.filter (fun u =>
    u.privilege == "student"
    && (match q with | none => true | some s => qMatchUser s u)
    && (match levelIds with | none => true | some ids => u.enrolledClasses.any (fun e => ids.contains e))
    && (match q with | none => true | some _ => qIds.isEmpty || u.enrolledClasses.any (fun e => qIds.contains e)))

/-- The set of matching students of `GET /students-with-classes`, before
sort/skip/limit; `lv` and `q` are the already-coerced `level` and trimmed
nonempty `q` parameters. When a level filter matches no class the handler
returns `{items: [], total: 0}` early (lines 267-269). -/
def swcMatching (db : DB) (lv : Option LevelVal) (q : Option String) : List UserDoc :=
  match lv with
  | some l =>
    let ids := levelClassIds db l
    if ids.isEmpty then [] else swcFilter db (some ids) q
  | none => swcFilter db none q

/-- `User.countDocuments(userFilter)` — the `total` of the response. -/
def swcTotal (db : DB) (lv : Option LevelVal) (q : Option String) : Nat :=
  (swcMatching db lv q).length

/-- The sort key of `.sort({ lastName: 1, firstName: 1 })` (line 301):
last name then first name, and nothing else. -/
def sortKey (u : UserDoc) : String × String := (u.lastName, u.firstName)

/-- Lexicographic strict comparison of character lists (Mongo compares
strings bytewise; code-point order for this model). -/
def charListLt : List Char → List Char → Bool
  | _, [] => false
  | [], _ :: _ => true
  | a :: as, b :: bs =>
    if a < b then true
    else if a = b then charListLt as bs
    else false

/-- Strict string comparison used by the sort model. -/
def strLtB (a b : String) : Bool := charListLt a.data b.data

/-- Order on sort keys: lexicographic on (lastName, firstName). -/
def keyLe (a b : String × String) : Prop :=
  strLtB a.1 b.1 = true ∨ (a.1 = b.1 ∧ (strLtB a.2 b.2 = true ∨ a.2 = b.2))

instance (a b : String × String) : Decidable (keyLe a b) := by
  unfold keyLe; infer_instance

def keyLeU (a b : UserDoc) : Prop := keyLe (sortKey a) (sortKey b)

instance (a b : UserDoc) : Decidable (keyLeU a b) := by
  unfold keyLeU; infer_instance

/-- What Mongo guarantees for the sorted query result `o`: it lists exactly
the matching students, in some order nondecreasing by (lastName,
firstName). Ties are in unspecified order, so different calls may observe
different valid orderings. -/
def validOrdering (db : DB) (lv : Option LevelVal) (q : Option String) (o : List UserDoc) : Prop :=
  o.Perm (swcMatching db lv q) ∧ o.Pairwise keyLeU

/-! ## Class creation and duplicate detection (server/routes/class-routes.js
lines 106-144) -/

/-- Two schedule entries agree on the (day, startTime, endTime) triple —
the comparison inside the duplicate check (lines 115-117); `timezone` is
ignored. -/
def schedMatch (a b : ScheduleEntry) : Bool :=
  a.day == b.day && a.startTime == b.startTime && a.endTime == b.endTime

/-- The duplicate test applied to each same-triple existing class (lines
111-119): equal lengths, and every entry of the existing schedule has a
matching (day, startTime, endTime) entry in the submitted one. -/
def schedListMatch (cls sub : List ScheduleEntry) : Bool :=
  cls.length == sub.length && cls.all (fun x => sub.any (fun y => schedMatch x y))

/-- Spec-side definition: the two schedules are equal as unordered sets of
(day, startTime, endTime) triples, i.e. mutual containment. -/
def sameTripleSet (a b : List ScheduleEntry) : Bool :=
  a.all (fun x => b.any (fun y => schedMatch x y)) &&
  b.all (fun y => a.any (fun x => schedMatch x y))

/-- No two entries of the schedule share a (day, startTime, endTime) triple. -/
def tripleNodup : List ScheduleEntry → Bool
  | [] => true
  | x :: r => !(r.any (fun y => schedMatch x y)) && tripleNodup r

/-- Result of `POST /classes`: 409 with the first matching existing class,
or 201 with the new class. -/
inductive CreateR where
  | conflict (c : ClassDoc)
  | created (c : ClassDoc)
deriving DecidableEq, Repr

/-- The document `new Class({level, ageGroup, instructor, schedule})` saves:
schema defaults for the other fields (server/schemas/Class.js). -/
def newClassDoc (l : LevelVal) (ageGroup instructor : String)
    (schedule : List ScheduleEntry) (newId : String) : ClassDoc :=
  { id := newId, level := l, ageGroup := ageGroup, instructor := instructor,
    image := "level_img_0.webp", link := "", schedule := schedule,
    roster := [], isEnrollmentOpen := true }

/-- The same-triple matching classes in collection order:
`Class.find({level, ageGroup, instructor})` then the schedule filter. -/
def dupMatches (db : DB) (l : LevelVal) (ageGroup instructor : String)
    (schedule : List ScheduleEntry) : List ClassDoc :=
  (db.classes.filter
    (fun c => c.level == l && c.ageGroup == ageGroup && c.instructor == instructor)).filter
    (fun c => schedListMatch c.schedule schedule)

/-- `POST /classes` (lines 106-144): find existing classes with the same
(level, ageGroup, instructor), keep those whose schedule passes
`schedListMatch`, answer 409 with the first one when any exists, else save
a new class (defaults from the schema: empty roster, enrollment open,
default image, empty link). `newId` stands for the fresh ObjectId. -/
def createClass (db : DB) (l : LevelVal) (ageGroup instructor : String)
    (schedule : List ScheduleEntry) (newId : String) : DB × CreateR :=
  match dupMatches db l ageGroup instructor schedule with
  | m :: _ => (db, .conflict m)
  | [] =>
    ({ db with classes := db.classes ++ [newClassDoc l ageGroup instructor schedule newId] },
     .created (newClassDoc l ageGroup instructor schedule newId))

/-! ## Access gate (server/routes/user-routes.js lines 19-46) -/

/-- `getMe`: resolve the requester's record from the Clerk session id. -/
def getMe (db : DB) (clerkId : Option String) : Option UserDoc :=
  match clerkId with
  | none => none
  | some ck => db.users.find? (fun u => u.clerkId == ck)

/-- `isAdminOrInstructor` (line 19). -/
def isAdminOrInstructor (u : Option UserDoc) : Bool :=
  match u with
  | some u => u.privilege == "admin" || u.privilege == "instructor"
  | none => false

/-- Result of the `allowSelfOrPriv` middleware: pass to the handler, or
reply 400 / 404 / 403. -/
inductive AuthR where
  | allow
  | badRequest
  | notFound
  | forbidden
deriving DecidableEq, Repr

/-- `allowSelfOrPriv` (lines 27-46): a privileged requester passes at once;
otherwise the target id must be well-formed (400), resolve to an existing
user (404 before any forbidden decision), and belong to the requester
(403 otherwise). -/
def allowSelfOrPriv (db : DB) (clerkId : Option String) (paramId : Option String) : AuthR :=
  if isAdminOrInstructor (getMe db clerkId) then .allow
  else
    match paramId with
    | none => .badRequest
    | some pid =>
      if !(isValidOid pid) then .badRequest
      else
        match db.users.find? (fun u => u.id == pid) with
        | none => .notFound
        | some target =>
          if (match clerkId with | some ck => target.clerkId == ck | none => false)
          then .allow else .forbidden

/-! ## Spec-side predicates for the listing claims -/

/-- Spec-side count for the level filter: the number of distinct student
documents having at least one enrolled class whose level equals the filter. -/
def distinctStudentsAtLevel (db : DB) (l : LevelVal) : Nat :=
  (db.users.filter (fun u =>
    u.privilege == "student"
    && db.classes.any (fun c => c.level == l && u.enrolledClasses.contains c.id))).length

/-- Spec-side text-query predicate (the disjunction the spec and the code
comment describe): the query matches the student's first name, last name or
email, or the instructor or ageGroup of one of the student's enrolled
classes. -/
def qMatchStudentSpec (db : DB) (q : String) (u : UserDoc) : Bool :=
  u.privilege == "student" &&
  (qMatchUser q u ||
   u.enrolledClasses.any (fun e =>
     db.classes.any (fun c => c.id == e && (imatchS q c.instructor || imatchS q c.ageGroup))))

/-! ## C1: the bidirectional invariant is preserved -/

instance (db : DB) : Decidable (RosterInv db) := by
  unfold RosterInv; infer_instance

theorem rosterInv_enroll_upd {db : DB} (h : RosterInv db) (uid cid : String) :
    RosterInv { users := db.users.map (enrollUserUpd uid cid),
                classes := db.classes.map (enrollClassUpd uid cid) } := by
  intro u' hu' c' hc'
  simp only [List.mem_map] at hu' hc'
  obtain ⟨u, hu, rfl⟩ := hu'
  obtain ⟨c, hc, rfl⟩ := hc'
  have hbase := h u hu c hc
  unfold enrollUserUpd enrollClassUpd
  rcases Decidable.em (u.id = uid) with h1 | h1 <;>
    rcases Decidable.em (c.id = cid) with h2 | h2
  · rw [if_pos h1, if_pos h2]
    exact iff_of_true (mem_addToSet.mpr (Or.inr h2)) (mem_addToSet.mpr (Or.inr h1))
  · rw [if_pos h1, if_neg h2]
    exact ⟨fun hm => hbase.mp ((mem_addToSet.mp hm).resolve_right h2),
           fun hm => mem_addToSet.mpr (Or.inl (hbase.mpr hm))⟩
  · rw [if_neg h1, if_pos h2]
    exact ⟨fun hm => mem_addToSet.mpr (Or.inl (hbase.mp hm)),
           fun hm => hbase.mpr ((mem_addToSet.mp hm).resolve_right h1)⟩
  · rw [if_neg h1, if_neg h2]
    exact hbase

theorem rosterInv_unenroll_upd {db : DB} (h : RosterInv db) (uid cid : String) :
    RosterInv { users := db.users.map (unenrollUserUpd uid cid),
                classes := db.classes.map (unenrollClassUpd uid cid) } := by
  intro u' hu' c' hc'
  simp only [List.mem_map] at hu' hc'
  obtain ⟨u, hu, rfl⟩ := hu'
  obtain ⟨c, hc, rfl⟩ := hc'
  have hbase := h u hu c hc
  unfold unenrollUserUpd unenrollClassUpd
  rcases Decidable.em (u.id = uid) with h1 | h1 <;>
    rcases Decidable.em (c.id = cid) with h2 | h2
  · rw [if_pos h1, if_pos h2]
    exact iff_of_false (fun hm => (mem_pull.mp hm).2 h2) (fun hm => (mem_pull.mp hm).2 h1)
  · rw [if_pos h1, if_neg h2]
    exact ⟨fun hm => hbase.mp (mem_pull.mp hm).1,
           fun hm => mem_pull.mpr ⟨hbase.mpr hm, h2⟩⟩
  · rw [if_neg h1, if_pos h2]
    exact ⟨fun hm => mem_pull.mpr ⟨hbase.mp hm, h1⟩,
           fun hm => hbase.mpr (mem_pull.mp hm).1⟩
  · rw [if_neg h1, if_neg h2]
    exact hbase

theorem rosterInv_deleteUser_upd {db : DB} (h : RosterInv db)
    (failsC : String → Bool) (enrolled : List String) (uid : String) :
    RosterInv { users := db.users.filter (fun u => u.id != uid),
                classes := db.classes.map (userCascadeClassUpd failsC enrolled uid) } := by
  intro u' hu' c' hc'
  simp only [List.mem_filter, bne_iff_ne] at hu'
  obtain ⟨hu, hune⟩ := hu'
  simp only [List.mem_map] at hc'
  obtain ⟨c, hc, rfl⟩ := hc'
  have hbase := h u' hu c hc
  unfold userCascadeClassUpd
  split
  · exact ⟨fun hm => mem_pull.mpr ⟨hbase.mp hm, hune⟩,
           fun hm => hbase.mpr (mem_pull.mp hm).1⟩
  · exact hbase

theorem rosterInv_deleteClass_upd {db : DB} (h : RosterInv db)
    (failsU : String → Bool) (roster : List String) (cid : String) :
    RosterInv { users := db.users.map (classCascadeUserUpd failsU roster cid),
                classes := db.classes.filter (fun c => c.id != cid) } := by
  intro u' hu' c' hc'
  simp only [List.mem_filter, bne_iff_ne] at hc'
  obtain ⟨hc, hcne⟩ := hc'
  simp only [List.mem_map] at hu'
  obtain ⟨u, hu, rfl⟩ := hu'
  have hbase := h u hu c' hc
  unfold classCascadeUserUpd
  split
  · exact ⟨fun hm => hbase.mp (mem_pull.mp hm).1,
           fun hm => mem_pull.mpr ⟨hbase.mpr hm, hcne⟩⟩
  · exact hbase

/-- C1. For all Users u and Classes c, `c.id ∈ u.enrolledClasses ⟺ u.id ∈
c.roster`: starting from a state satisfying this bidirectional invariant,
every Enroll, Unenroll, CascadeDeleteUser and CascadeDeleteClass operation
with no mid-operation write failure (in particular every completed one)
yields a state that still satisfies it. -/
theorem C1_roster_invariant_preserved (db : DB) (hInv : RosterInv db)
    (uid cid x y : String) :
    RosterInv (enroll db uid cid).1 ∧ RosterInv (unenroll db uid cid).1 ∧
    RosterInv (deleteUser db x).1 ∧ RosterInv (deleteClass db y).1 := by
  refine ⟨?_, ?_, ?_, ?_⟩
  · unfold enroll
    split
    · exact hInv
    · split
      · exact hInv
      · split
        · exact hInv
        · split
          · exact hInv
          · split
            · exact hInv
            · split
              · exact hInv
              · exact rosterInv_enroll_upd hInv uid cid
  · unfold unenroll
    split
    · exact hInv
    · split
      · exact hInv
      · split
        · exact hInv
        · exact rosterInv_unenroll_upd hInv uid cid
  · unfold deleteUser deleteUserF
    split
    · exact hInv
    · split
      · exact hInv
      · split
        · next hany => simp at hany
        · exact rosterInv_deleteUser_upd hInv _ _ x
  · unfold deleteClass deleteClassF
    split
    · exact hInv
    · split
      · exact hInv
      · split
        · next hany => simp at hany
        · exact rosterInv_deleteClass_upd hInv _ _ y

/-- A small concrete consistent state used by several witnesses. -/
def exDB : DB :=
  { users :=
      [{ id := "uuuuuuuuuuu1", firstName := "Aysha", lastName := "Karim",
         email := "a@x.com", clerkId := "ck1", privilege := "student",
         enrolledClasses := ["cccccccccc01"] },
       { id := "uuuuuuuuuuu2", firstName := "Bota", lastName := "Lee",
         email := "b@x.com", clerkId := "ck2", privilege := "student",
         enrolledClasses := [] }],
    classes :=
      [{ id := "cccccccccc01", level := .num 3, ageGroup := "adult",
         instructor := "X", image := "i", link := "", schedule := [],
         roster := ["uuuuuuuuuuu1"], isEnrollmentOpen := true },
       { id := "cccccccccc02", level := .str "conversation", ageGroup := "adult",
         instructor := "Y", image := "i", link := "", schedule := [],
         roster := [], isEnrollmentOpen := true }] }

/-- Witness for C1 at a concrete consistent two-user / two-class state. -/
theorem C1_roster_invariant_preserved_witness :
    RosterInv exDB ∧ RosterInv (enroll exDB "uuuuuuuuuuu2" "cccccccccc02").1 := by
  refine ⟨by decide, ?_⟩
  exact (C1_roster_invariant_preserved exDB (by decide) "uuuuuuuuuuu2" "cccccccccc02"
    "uuuuuuuuuuu1" "cccccccccc01").1

/-! ## C6: enrolling twice equals enrolling once -/

/-- C6. If Enroll(u, c) succeeds, an immediately repeated Enroll(u, c)
reports "already enrolled" and leaves the state exactly as after the first
call (so set sizes are unchanged and the end state equals that of a single
call). -/
theorem C6_enroll_idempotent (db : DB) (uid cid : String)
    (h : (enroll db uid cid).2 = EnrollR.enrolled) :
    (enroll (enroll db uid cid).1 uid cid).2 = EnrollR.alreadyEnrolled ∧
    (enroll (enroll db uid cid).1 uid cid).1 = (enroll db uid cid).1 := by
  by_cases hval : isValidOid uid = true
  case neg => exact absurd h (by simp [enroll, hval])
  cases hfind : db.users.find? (fun u => u.id == uid) with
  | none => exact absurd h (by simp [enroll, hval, hfind])
  | some user =>
    by_cases hmem : cid ∈ user.enrolledClasses
    · exact absurd h (by simp [enroll, hval, hfind, hmem])
    · by_cases hcval : isValidOid cid = true
      case neg => exact absurd h (by simp [enroll, hval, hfind, hmem, hcval])
      cases hfc : db.classes.find? (fun c => c.id == cid) with
      | none => exact absurd h (by simp [enroll, hval, hfind, hmem, hcval, hfc])
      | some cls =>
        by_cases hopen : cls.isEnrollmentOpen = true
        case neg => exact absurd h (by simp [enroll, hval, hfind, hmem, hcval, hfc, hopen])
        have heq : enroll db uid cid =
            ({ users := db.users.map (enrollUserUpd uid cid),
               classes := db.classes.map (enrollClassUpd uid cid) }, .enrolled) := by
          simp [enroll, hval, hfind, hmem, hcval, hfc, hopen]
        rw [heq]
        have hid : user.id = uid := by simpa using List.find?_some hfind
        have hfind2 : (db.users.map (enrollUserUpd uid cid)).find? (fun u => u.id == uid)
            = some (enrollUserUpd uid cid user) := by
          rw [List.find?_map]
          have hcomp : ((fun u : UserDoc => u.id == uid) ∘ (enrollUserUpd uid cid))
              = fun u => u.id == uid := by
            funext u
            simp only [Function.comp]
            unfold enrollUserUpd
            split <;> rfl
          rw [hcomp, hfind]
          rfl
        have hmem2 : cid ∈ (enrollUserUpd uid cid user).enrolledClasses := by
          unfold enrollUserUpd
          rw [if_pos hid]
          exact mem_addToSet.mpr (Or.inr rfl)
        constructor <;> simp [enroll, hval, hfind2, hmem2]

/-- Witness for C6: a successful concrete enroll followed by a repeat. -/
theorem C6_enroll_idempotent_witness :
    (enroll (enroll exDB "uuuuuuuuuuu2" "cccccccccc02").1 "uuuuuuuuuuu2" "cccccccccc02").2
      = EnrollR.alreadyEnrolled ∧
    (enroll (enroll exDB "uuuuuuuuuuu2" "cccccccccc02").1 "uuuuuuuuuuu2" "cccccccccc02").1
      = (enroll exDB "uuuuuuuuuuu2" "cccccccccc02").1 :=
  C6_enroll_idempotent exDB "uuuuuuuuuuu2" "cccccccccc02" (by decide)

/-! ## C10: a well-formed id of a nonexistent user -/

/-- C10. For a well-formed (valid ObjectId) user id that references no
existing User, both Enroll and Unenroll answer with the 500-class internal
error (`user.enrolledClasses` is dereferenced on `null`), not a 404, and
the state is unchanged. -/
theorem C10_missing_user_internal_error (db : DB) (uid cid : String)
    (hv : isValidOid uid = true) (habs : ∀ u ∈ db.users, u.id ≠ uid) :
    enroll db uid cid = (db, EnrollR.serverError) ∧
    unenroll db uid cid = (db, UnenrollR.serverError) := by
  have hfind : db.users.find? (fun u => u.id == uid) = none := by
    rw [List.find?_eq_none]
    intro u hu
    simpa using habs u hu
  constructor
  · unfold enroll
    rw [if_neg (by simp [hv]), hfind]
  · unfold unenroll
    rw [if_neg (by simp [hv]), hfind]

/-- Witness for C10: "uuuuuuuuuuu9" is a well-formed 12-character id absent
from the concrete state. -/
theorem C10_missing_user_internal_error_witness :
    enroll exDB "uuuuuuuuuuu9" "cccccccccc01" = (exDB, EnrollR.serverError) ∧
    unenroll exDB "uuuuuuuuuuu9" "cccccccccc01" = (exDB, UnenrollR.serverError) :=
  C10_missing_user_internal_error exDB "uuuuuuuuuuu9" "cccccccccc01" (by decide) (by decide)

/-! ## C8: the self-or-privileged access check -/

/-- C8. `allowSelfOrPriv` passes exactly when the requester is privileged
(admin or instructor) or the target id is the requester's own record; for a
non-privileged requester a well-formed but nonexistent target id fails
closed with "not found" (existence is checked before the forbidden
decision). -/
theorem C8_self_or_privileged (db : DB) (ck : Option String) (pid : String)
    (hv : isValidOid pid = true) (hn : (db.users.map (fun u => u.id)).Nodup) :
    (allowSelfOrPriv db ck (some pid) = AuthR.allow ↔
      (isAdminOrInstructor (getMe db ck) = true ∨
       ∃ t ∈ db.users, t.id = pid ∧ ck = some t.clerkId)) ∧
    (isAdminOrInstructor (getMe db ck) = false →
      (∀ t ∈ db.users, t.id ≠ pid) →
      allowSelfOrPriv db ck (some pid) = AuthR.notFound) := by
  constructor
  · by_cases hpriv : isAdminOrInstructor (getMe db ck) = true
    · simp [allowSelfOrPriv, hpriv]
    · cases hfind : db.users.find? (fun u => u.id == pid) with
      | none =>
        have hres : allowSelfOrPriv db ck (some pid) = AuthR.notFound := by
          simp [allowSelfOrPriv, hpriv, hv, hfind]
        rw [hres]
        constructor
        · intro hc
          exact absurd hc (by decide)
        · rintro (hp | ⟨t, ht, hid, hck⟩)
          · exact absurd hp hpriv
          · exfalso
            have := List.find?_eq_none.mp hfind t ht
            simp [hid] at this
      | some target =>
        have htid : target.id = pid := by simpa using List.find?_some hfind
        have htmem : target ∈ db.users := List.mem_of_find?_eq_some hfind
        cases ck with
        | none =>
          have hres : allowSelfOrPriv db none (some pid) = AuthR.forbidden := by
            simp [allowSelfOrPriv, hpriv, hv, hfind]
          rw [hres]
          constructor
          · intro hc
            exact absurd hc (by decide)
          · rintro (hp | ⟨t, ht, hid, hckq⟩)
            · exact absurd hp hpriv
            · exact absurd hckq (by simp)
        | some c =>
          by_cases hck : target.clerkId = c
          · have hres : allowSelfOrPriv db (some c) (some pid) = AuthR.allow := by
              simp [allowSelfOrPriv, hpriv, hv, hfind, hck]
            rw [hres]
            exact iff_of_true rfl (Or.inr ⟨target, htmem, htid, by rw [hck]⟩)
          · have hres : allowSelfOrPriv db (some c) (some pid) = AuthR.forbidden := by
              simp [allowSelfOrPriv, hpriv, hv, hfind, hck]
            rw [hres]
            constructor
            · intro hc
              exact absurd hc (by decide)
            · rintro (hp | ⟨t, ht, hid, hckq⟩)
              · exact absurd hp hpriv
              · exfalso
                have hteq : t = target :=
                  List.inj_on_of_nodup_map hn ht htmem (by rw [hid, htid])
                rw [hteq] at hckq
                exact hck (Option.some.inj hckq).symm
  · intro hpriv habs
    have hfind : db.users.find? (fun u => u.id == pid) = none := by
      rw [List.find?_eq_none]
      intro t ht
      simpa using habs t ht
    simp [allowSelfOrPriv, hpriv, hv, hfind]

/-- Witness for C8: a non-privileged requester asking about a well-formed
absent id gets "not found", and a privileged requester is allowed. -/
theorem C8_self_or_privileged_witness :
    allowSelfOrPriv exDB (some "ck1") (some "uuuuuuuuuuu9") = AuthR.notFound :=
  (C8_self_or_privileged exDB (some "ck1") "uuuuuuuuuuu9" (by decide) (by decide)).2
    (by decide) (by decide)

/-! ## C4: the level-filtered total counts distinct students -/

theorem contains_iff_memS {l : List String} {a : String} : l.contains a = true ↔ a ∈ l := by
  simp [List.contains_iff_exists_mem_beq]

/-- C4. For every level filter value, the `total` of
`GET /students-with-classes` equals the number of distinct student
documents having at least one enrolled class whose `level` equals the
filter — not the unfiltered student count and not the number of matching
classes. -/
theorem C4_filter_total_distinct_students (db : DB) (l : LevelVal) :
    swcTotal db (some l) none = distinctStudentsAtLevel db l := by
  unfold swcTotal swcMatching distinctStudentsAtLevel
  dsimp only
  by_cases hids : (levelClassIds db l).isEmpty = true
  · rw [if_pos hids]
    have h0 : levelClassIds db l = [] := by simpa [List.isEmpty_iff] using hids
    have hcl : ∀ c ∈ db.classes, ¬ ((c.level == l) = true) := by
      intro c hc hlev
      have hmem : c.id ∈ levelClassIds db l := by
        unfold levelClassIds
        exact List.mem_map.mpr ⟨c, List.mem_filter.mpr ⟨hc, hlev⟩, rfl⟩
      rw [h0] at hmem
      exact absurd hmem (List.not_mem_nil _)
    have hnil : db.users.filter (fun u => u.privilege == "student"
        && db.classes.any (fun c => c.level == l && u.enrolledClasses.contains c.id)) = [] := by
      rw [List.filter_eq_nil_iff]
      intro u _
      simp only [Bool.and_eq_true, List.any_eq_true, not_and]
      rintro _ ⟨c, hc, hcc⟩
      exact hcl c hc hcc.1
    rw [hnil]
  · rw [if_neg hids]
    unfold swcFilter
    dsimp only
    congr 1
    apply List.filter_congr
    intro u _
    rw [Bool.eq_iff_iff]
    simp only [Bool.and_true, Bool.true_and, Bool.and_eq_true, List.any_eq_true]
    constructor
    · rintro ⟨hs, e, he, hec⟩
      refine ⟨hs, ?_⟩
      have hmem := contains_iff_memS.mp hec
      unfold levelClassIds at hmem
      obtain ⟨c, hcf, rfl⟩ := List.mem_map.mp hmem
      obtain ⟨hc, hlev⟩ := List.mem_filter.mp hcf
      exact ⟨c, hc, hlev, contains_iff_memS.mpr he⟩
    · rintro ⟨hs, c, hc, hlev, hin⟩
      refine ⟨hs, c.id, contains_iff_memS.mp hin, ?_⟩
      apply contains_iff_memS.mpr
      unfold levelClassIds
      exact List.mem_map.mpr ⟨c, List.mem_filter.mpr ⟨hc, hlev⟩, rfl⟩

/-! ## C2: cascade-delete failure propagation -/

/-- A state with one conversation class whose roster holds one student. -/
def exDB2 : DB :=
  { users :=
      [{ id := "uuuuuuuuuuu1", firstName := "Aysha", lastName := "Karim",
         email := "a@x.com", clerkId := "ck1", privilege := "student",
         enrolledClasses := ["cccccccccc03"] }],
    classes :=
      [{ id := "cccccccccc03", level := .str "conversation", ageGroup := "adult",
         instructor := "Y", image := "i", link := "", schedule := [],
         roster := ["uuuuuuuuuuu1"], isEnrollmentOpen := true }] }

/-- C2 evaluation. When the enrolledClasses-removal for the rostered student
fails, `DELETE /conversations/:id` still reports success and deletes the
class document, leaving the student's dangling reference behind — while
`DELETE /classes/:id` on the same state propagates the failure and keeps
the class, and `DELETE /user/:id` with a failing roster removal propagates
the failure and keeps the user. The claim's fail-loud requirement therefore
fails for the conversation (and identical IELTS) variant. -/
theorem C2_conversation_delete_swallows_failure :
    (deleteConversationF (fun s => s == "uuuuuuuuuuu1") exDB2 "cccccccccc03").2
      = DeleteR.deleted ∧
    (deleteConversationF (fun s => s == "uuuuuuuuuuu1") exDB2 "cccccccccc03").1.classes = [] ∧
    ((deleteConversationF (fun s => s == "uuuuuuuuuuu1") exDB2 "cccccccccc03").1.users.map
      (fun u => u.enrolledClasses)) = [["cccccccccc03"]] ∧
    (deleteClassF (fun s => s == "uuuuuuuuuuu1") exDB2 "cccccccccc03").2
      = DeleteR.serverError ∧
    ((deleteClassF (fun s => s == "uuuuuuuuuuu1") exDB2 "cccccccccc03").1.classes.map
      (fun c => c.id)) = ["cccccccccc03"] ∧
    (deleteUserF (fun s => s == "cccccccccc03") exDB2 "uuuuuuuuuuu1").2
      = DeleteR.serverError ∧
    ((deleteUserF (fun s => s == "cccccccccc03") exDB2 "uuuuuuuuuuu1").1.users.map
      (fun u => u.id)) = ["uuuuuuuuuuu1"] := by
  decide

/-! ## C7: duplicate class detection -/

/-- The (day, startTime, endTime) triple of a schedule entry. -/
def tripleOf (x : ScheduleEntry) : String × String × String :=
  (x.day, x.startTime, x.endTime)

theorem schedMatch_iff {x y : ScheduleEntry} :
    schedMatch x y = true ↔ tripleOf x = tripleOf y := by
  unfold schedMatch tripleOf
  simp [Bool.and_eq_true, Prod.ext_iff, and_assoc]

theorem schedMatch_refl (x : ScheduleEntry) : schedMatch x x = true := by
  simp [schedMatch]

theorem schedListMatch_self (s : List ScheduleEntry) : schedListMatch s s = true := by
  unfold schedListMatch
  simp only [Bool.and_eq_true, List.all_eq_true, List.any_eq_true, beq_self_eq_true, true_and]
  exact fun x hx => ⟨x, hx, schedMatch_refl x⟩

theorem any_schedMatch_false_iff {x : ScheduleEntry} {r : List ScheduleEntry} :
    (r.any fun y => schedMatch x y) = false ↔ ∀ y ∈ r, tripleOf x ≠ tripleOf y := by
  constructor
  · intro h y hy he
    have hr : (r.any fun y => schedMatch x y) = true :=
      List.any_eq_true.mpr ⟨y, hy, schedMatch_iff.mpr he⟩
    rw [h] at hr
    cases hr
  · intro h
    cases hb : (r.any fun y => schedMatch x y) with
    | false => rfl
    | true =>
      obtain ⟨y, hy, hm⟩ := List.any_eq_true.mp hb
      exact absurd (schedMatch_iff.mp hm) (h y hy)

theorem tripleNodup_iff {l : List ScheduleEntry} :
    tripleNodup l = true ↔ (l.map tripleOf).Nodup := by
  induction l with
  | nil => simp [tripleNodup]
  | cons x r ih =>
    unfold tripleNodup
    rw [Bool.and_eq_true, ih]
    simp only [List.map_cons, List.nodup_cons, List.mem_map, Bool.not_eq_true']
    rw [any_schedMatch_false_iff]
    constructor
    · rintro ⟨hno, hnd⟩
      refine ⟨?_, hnd⟩
      rintro ⟨y, hy, he⟩
      exact hno y hy he.symm
    · rintro ⟨hnm, hnd⟩
      exact ⟨fun y hy he => hnm ⟨y, hy, he.symm⟩, hnd⟩

theorem forall_mem_exists_iff_map_subset {a b : List ScheduleEntry} :
    (∀ x ∈ a, ∃ y ∈ b, schedMatch x y = true) ↔
      ∀ t ∈ a.map tripleOf, t ∈ b.map tripleOf := by
  constructor
  · rintro h t ht
    obtain ⟨x, hx, rfl⟩ := List.mem_map.mp ht
    obtain ⟨y, hy, he⟩ := h x hx
    exact List.mem_map.mpr ⟨y, hy, (schedMatch_iff.mp he).symm⟩
  · intro h x hx
    obtain ⟨y, hy, he⟩ := List.mem_map.mp (h _ (List.mem_map.mpr ⟨x, hx, rfl⟩))
    exact ⟨y, hy, schedMatch_iff.mpr he.symm⟩

theorem nodup_subset_reverse {α : Type} [DecidableEq α] {ta tb : List α}
    (hna : ta.Nodup) (hnb : tb.Nodup) (hlen : ta.length = tb.length)
    (hsub : ∀ t ∈ ta, t ∈ tb) : ∀ t ∈ tb, t ∈ ta := by
  have hfs : ta.toFinset ⊆ tb.toFinset := by
    intro t ht
    exact List.mem_toFinset.mpr (hsub t (List.mem_toFinset.mp ht))
  have heq : ta.toFinset = tb.toFinset := by
    apply Finset.eq_of_subset_of_card_le hfs
    rw [List.toFinset_card_of_nodup hna, List.toFinset_card_of_nodup hnb, hlen]
  intro t ht
  exact List.mem_toFinset.mp (heq ▸ List.mem_toFinset.mpr ht)

theorem nodup_mutual_subset_length_eq {α : Type} [DecidableEq α] {ta tb : List α}
    (hna : ta.Nodup) (hnb : tb.Nodup)
    (hab : ∀ t ∈ ta, t ∈ tb) (hba : ∀ t ∈ tb, t ∈ ta) : ta.length = tb.length := by
  rw [← List.toFinset_card_of_nodup hna, ← List.toFinset_card_of_nodup hnb]
  congr 1
  ext t
  simp only [List.mem_toFinset]
  exact ⟨hab t, hba t⟩

/-- C7 (amended). The duplicate check of `POST /classes` tests length
equality plus one-sided entry matching, which coincides with unordered-set
equality of (day, startTime, endTime) triples exactly when both schedules
are duplicate-free; and a second identical submission after a successful
creation returns a conflict referencing the class created first. -/
theorem C7_duplicate_detection_amended :
    (∀ a b : List ScheduleEntry, tripleNodup a = true → tripleNodup b = true →
      schedListMatch a b = sameTripleSet a b) ∧
    (∀ (db : DB) (l : LevelVal) (ag ins : String) (sch : List ScheduleEntry)
       (nid nid2 : String) (c : ClassDoc),
      (createClass db l ag ins sch nid).2 = CreateR.created c →
      (createClass (createClass db l ag ins sch nid).1 l ag ins sch nid2).2
        = CreateR.conflict c) := by
  constructor
  · intro a b hna hnb
    rw [tripleNodup_iff] at hna hnb
    rw [Bool.eq_iff_iff]
    unfold schedListMatch sameTripleSet
    simp only [Bool.and_eq_true, List.all_eq_true, List.any_eq_true, beq_iff_eq]
    constructor
    · rintro ⟨hlen, hsub⟩
      have hmap := forall_mem_exists_iff_map_subset.mp hsub
      refine ⟨hsub, ?_⟩
      have hrev := nodup_subset_reverse hna hnb (by simpa using hlen) hmap
      intro y hy
      obtain ⟨x, hx, he⟩ := List.mem_map.mp (hrev _ (List.mem_map.mpr ⟨y, hy, rfl⟩))
      exact ⟨x, hx, schedMatch_iff.mpr he⟩
    · rintro ⟨hab, hba⟩
      refine ⟨?_, hab⟩
      have hmab := forall_mem_exists_iff_map_subset.mp hab
      have hmba : ∀ t ∈ b.map tripleOf, t ∈ a.map tripleOf := by
        intro t ht
        obtain ⟨y, hy, rfl⟩ := List.mem_map.mp ht
        obtain ⟨x, hx, he⟩ := hba y hy
        exact List.mem_map.mpr ⟨x, hx, schedMatch_iff.mp he⟩
      have := nodup_mutual_subset_length_eq hna hnb hmab hmba
      simpa using this
  · intro db l ag ins sch nid nid2 c hc
    unfold createClass at hc
    cases hdm : dupMatches db l ag ins sch with
    | cons m r => rw [hdm] at hc; simp at hc
    | nil =>
      rw [hdm] at hc
      simp only [CreateR.created.injEq] at hc
      have heq1 : createClass db l ag ins sch nid =
          ({ db with classes := db.classes ++ [newClassDoc l ag ins sch nid] },
           .created (newClassDoc l ag ins sch nid)) := by
        unfold createClass
        rw [hdm]
      rw [heq1]
      have hdm2 : dupMatches
          { db with classes := db.classes ++ [newClassDoc l ag ins sch nid] } l ag ins sch
          = [newClassDoc l ag ins sch nid] := by
        unfold dupMatches at hdm ⊢
        dsimp only
        rw [List.filter_append, List.filter_append, hdm]
        have h1 : List.filter
            (fun c => c.level == l && c.ageGroup == ag && c.instructor == ins)
            [newClassDoc l ag ins sch nid] = [newClassDoc l ag ins sch nid] := by
          simp [newClassDoc]
        rw [h1]
        have h2 : List.filter (fun c => schedListMatch c.schedule sch)
            [newClassDoc l ag ins sch nid] = [newClassDoc l ag ins sch nid] := by
          simp [newClassDoc, schedListMatch_self]
        rw [h2, List.nil_append]
      unfold createClass
      rw [hdm2, ← hc]

/-- The (day, startTime, endTime) triples used by the C7 counterexample. -/
def schedA : ScheduleEntry :=
  { day := "Mon", startTime := "10:00", endTime := "11:00", timezone := "Etc/UTC" }

def schedB : ScheduleEntry :=
  { day := "Tue", startTime := "10:00", endTime := "11:00", timezone := "Etc/UTC" }

/-- An existing class whose schedule repeats the same entry twice. -/
def dupClass : ClassDoc :=
  { id := "cccccccccc07", level := .num 3, ageGroup := "adult", instructor := "X",
    image := "i", link := "", schedule := [schedA, schedA], roster := [],
    isEnrollmentOpen := true }

def dbC7 : DB := { users := [], classes := [dupClass] }

/-- C7 counterexample. Submitting `[schedA, schedB]` against an existing
class scheduled `[schedA, schedA]` with the same (level, ageGroup,
instructor) triple is reported as a duplicate, although the two schedules
are not equal as unordered sets of (day, startTime, endTime) triples —
refuting the claim's "exactly when the schedule sets are equal". -/
theorem C7_counterexample :
    (createClass dbC7 (.num 3) "adult" "X" [schedA, schedB] "cccccccccc08").2
      = CreateR.conflict dupClass ∧
    sameTripleSet dupClass.schedule [schedA, schedB] = false := by
  decide

/-- Witness for C7 (amended) at concrete inputs. -/
theorem C7_duplicate_detection_amended_witness :
    schedListMatch [schedA] [schedB] = sameTripleSet [schedA] [schedB] ∧
    (createClass (createClass (DB.mk [] []) (.num 1) "adult" "Z" [schedA] "cccccccccc09").1
        (.num 1) "adult" "Z" [schedA] "cccccccccc10").2
      = CreateR.conflict (newClassDoc (.num 1) "adult" "Z" [schedA] "cccccccccc09") :=
  ⟨C7_duplicate_detection_amended.1 [schedA] [schedB] (by decide) (by decide),
   C7_duplicate_detection_amended.2 (DB.mk [] []) (.num 1) "adult" "Z" [schedA]
     "cccccccccc09" "cccccccccc10" _ (by decide)⟩

/-! ## C9: escaping makes the search regex a literal substring test -/

theorem escapeRx_cons (c : Char) (t : List Char) :
    escapeRx (c :: t) = (if rxMeta c then ['\\', c] else [c]) ++ escapeRx t := rfl

theorem escapeRx_head_ne_star (t : List Char) :
    ∀ e E, escapeRx t = e :: E → e ≠ '*' := by
  cases t with
  | nil => intro e E h; cases h
  | cons d t' =>
    intro e E h
    rw [escapeRx_cons] at h
    by_cases hd : rxMeta d = true
    · rw [if_pos hd] at h
      injection h with h1 _
      rw [← h1]
      decide
    · rw [if_neg hd] at h
      injection h with h1 _
      intro he
      rw [h1, he] at hd
      exact hd rfl

theorem parseP_escaped (l : List Char) :
    parseP (escapeRx l) = some (l.map (fun c => RItem.once (RChar.lit c))) := by
  induction l with
  | nil => rfl
  | cons c t ih =>
    rw [escapeRx_cons]
    by_cases hm : rxMeta c = true
    · rw [if_pos hm]
      show parseP ('\\' :: c :: escapeRx t) = _
      rw [parseP.eq_def]
      dsimp only
      rw [if_neg (by decide), if_pos rfl]
      cases hE : escapeRx t with
      | nil =>
        rw [hE] at ih
        have hmap : t.map (fun c => RItem.once (RChar.lit c)) = [] := by
          have : (some [] : Option (List RItem)) = some (t.map (fun c => RItem.once (RChar.lit c))) := ih
          exact (Option.some.inj this).symm
        simp only [List.map_cons, hmap]
      | cons e E =>
        have hne : e ≠ '*' := escapeRx_head_ne_star t e E hE
        rw [hE] at ih
        simp only []
        rw [if_neg hne, ih]
        rfl
    · rw [if_neg hm]
      have hstar : c ≠ '*' := fun he => hm (by rw [he]; rfl)
      have hbs : c ≠ '\\' := fun he => hm (by rw [he]; rfl)
      have hdot : c ≠ '.' := fun he => hm (by rw [he]; rfl)
      show parseP (c :: escapeRx t) = _
      rw [parseP.eq_def]
      dsimp only
      rw [if_neg hstar, if_neg hbs]
      cases hE : escapeRx t with
      | nil =>
        rw [hE] at ih
        have hmap : t.map (fun c => RItem.once (RChar.lit c)) = [] := by
          have : (some [] : Option (List RItem)) = some (t.map (fun c => RItem.once (RChar.lit c))) := ih
          exact (Option.some.inj this).symm
        simp only [List.map_cons, hmap]
        unfold atomOf
        rw [if_neg hdot]
      | cons e E =>
        have hne : e ≠ '*' := escapeRx_head_ne_star t e E hE
        rw [hE] at ih
        simp only []
        rw [if_neg hne, ih]
        unfold atomOf
        rw [if_neg hdot]
        rfl

theorem matchPre_lit_iff (q : List Char) : ∀ s : List Char,
    matchPre (q.map (fun c => RItem.once (RChar.lit c))) s = prefB q s := by
  induction q with
  | nil => intro s; cases s <;> rfl
  | cons c q' ih =>
    intro s
    cases s with
    | nil => rfl
    | cons d s' =>
      show (charMatch (RChar.lit c) d && matchPre _ s') = (c == d && prefB q' s')
      rw [ih]
      rfl

theorem rtest_lit_iff (q : List Char) : ∀ s : List Char,
    rtest (q.map (fun c => RItem.once (RChar.lit c))) s = substrB q s := by
  intro s
  induction s with
  | nil => exact matchPre_lit_iff q []
  | cons d s' ih =>
    show (matchPre _ (d :: s') || rtest _ s') = (prefB q (d :: s') || substrB q s')
    rw [matchPre_lit_iff, ih]

/-- C9. The escaped, case-insensitive search regex the student listing
builds tests exactly for a literal (lowercased) substring occurrence —
metacharacters in the query never act as pattern syntax. In particular the
query "a.b*" matches a field literally equal to "a.b*" and does not match
"aXbYYY". -/
theorem C9_escaped_query_is_literal_substring :
    (∀ q s : String, imatchS q s = substrB (lowerL q.data) (lowerL s.data)) ∧
    imatchS "a.b*" "a.b*" = true ∧
    imatchS "a.b*" "aXbYYY" = false := by
  refine ⟨?_, by decide, by decide⟩
  intro q s
  unfold imatchS
  rw [parseP_escaped]
  exact rtest_lit_iff _ _

/-! ## C5: the text query is composed as a conjunction, not a disjunction -/

/-- A student whose name and email do not contain "alice", enrolled in a
class whose instructor is "Alice". -/
def bobC5 : UserDoc :=
  { id := "uuuuuuuuuuu5", firstName := "Bob", lastName := "Lee",
    email := "bob@x.com", clerkId := "ck5", privilege := "student",
    enrolledClasses := ["cccccccccc05"] }

def aliceClassC5 : ClassDoc :=
  { id := "cccccccccc05", level := .num 2, ageGroup := "adult",
    instructor := "Alice", image := "i", link := "", schedule := [],
    roster := ["uuuuuuuuuuu5"], isEnrollmentOpen := true }

def dbC5 : DB := { users := [bobC5], classes := [aliceClassC5] }

/-- C5 evaluation. For q = "alice", the student satisfies the disjunctive
spec predicate (his joined class's instructor matches), yet the handler's
filter — which requires the name/email `$or` AND membership in a matching
class whenever any class matches — returns no students. The spec's
"disjunction across these fields" does not hold of the code. -/
theorem C5_query_conjunction_not_disjunction :
    qMatchStudentSpec dbC5 "alice" bobC5 = true ∧
    swcMatching dbC5 none (some "alice") = [] := by
  decide

/-! ## C3: pagination determinism and the missing id tiebreak -/

theorem charListLt_irrefl : ∀ a : List Char, charListLt a a = false
  | [] => rfl
  | c :: as => by
    unfold charListLt
    rw [if_neg (lt_irrefl c), if_pos rfl]
    exact charListLt_irrefl as

theorem charListLt_asymm : ∀ {a b : List Char},
    charListLt a b = true → charListLt b a = true → False
  | [], [], h1, _ => by cases h1
  | _ :: _, [], h1, _ => by cases h1
  | [], _ :: _, _, h2 => by cases h2
  | a :: as, b :: bs, h1, h2 => by
    unfold charListLt at h1 h2
    rcases Decidable.em (a < b) with hab | hab
    · rw [if_neg (lt_asymm hab), if_neg (fun he : b = a => absurd (he ▸ hab) (lt_irrefl b))] at h2
      cases h2
    · rw [if_neg hab] at h1
      rcases Decidable.em (a = b) with he | he
      · rw [if_pos he] at h1
        rw [if_neg (he ▸ hab), if_pos he.symm] at h2
        exact charListLt_asymm h1 h2
      · rw [if_neg he] at h1
        cases h1

theorem strLtB_asymm {a b : String} (h1 : strLtB a b = true) (h2 : strLtB b a = true) :
    False :=
  charListLt_asymm h1 h2

theorem strLtB_irrefl (a : String) : strLtB a a = false :=
  charListLt_irrefl a.data

theorem keyLe_antisymm {a b : String × String} (h1 : keyLe a b) (h2 : keyLe b a) :
    a = b := by
  unfold keyLe at h1 h2
  rcases h1 with h1 | ⟨he1, h1⟩
  · rcases h2 with h2 | ⟨he2, h2⟩
    · exact absurd (strLtB_asymm h1 h2) not_false
    · rw [he2] at h1
      rw [strLtB_irrefl] at h1
      cases h1
  · rcases h2 with h2 | ⟨he2, h2⟩
    · rw [he1] at h2
      rw [strLtB_irrefl] at h2
      cases h2
    · rcases h1 with h1 | h1
      · rcases h2 with h2 | h2
        · exact absurd (strLtB_asymm h1 h2) not_false
        · rw [h2] at h1
          rw [strLtB_irrefl] at h1
          cases h1
      · exact Prod.ext_iff.mpr ⟨he1, h1⟩

/-- With pairwise-distinct (lastName, firstName) keys there is exactly one
valid sorted ordering, so every call observes the same list. -/
theorem validOrdering_unique {db : DB} {lv : Option LevelVal} {q : Option String}
    {o1 o2 : List UserDoc}
    (h1 : validOrdering db lv q o1) (h2 : validOrdering db lv q o2)
    (hd : (swcMatching db lv q).Pairwise (fun a b => sortKey a ≠ sortKey b)) :
    o1 = o2 := by
  have hperm : o1.Perm o2 := h1.1.trans h2.1.symm
  have hd1 : o1.Pairwise (fun a b => sortKey a ≠ sortKey b) :=
    (List.Perm.pairwise_iff (fun {a b} h he => h he.symm) h1.1).mpr hd
  have hd2 : o2.Pairwise (fun a b => sortKey a ≠ sortKey b) :=
    (List.Perm.pairwise_iff (fun {a b} h he => h he.symm) h2.1).mpr hd
  have hs1 : o1.Pairwise (fun a b => keyLeU a b ∧ sortKey a ≠ sortKey b) :=
    h1.2.and hd1
  have hs2 : o2.Pairwise (fun a b => keyLeU a b ∧ sortKey a ≠ sortKey b) :=
    h2.2.and hd2
  haveI : IsAntisymm UserDoc (fun a b => keyLeU a b ∧ sortKey a ≠ sortKey b) := ⟨by
    rintro a b ⟨hab, hne⟩ ⟨hba, -⟩
    exact absurd (keyLe_antisymm hab hba) hne⟩
  exact List.eq_of_perm_of_sorted hperm hs1 hs2

/-- C3 (amended). The listing sorts by (lastName, firstName) only — there
is no id tiebreak — so ties are returned in an unspecified order; whenever
the matching students' (lastName, firstName) keys are pairwise distinct
(in particular whenever no two students share a full name), three calls
with limit 2 over a fixed 5-student dataset return 2+2+1 items with no
overlap and no omission. -/
theorem C3_pagination_amended (db : DB) (o1 o2 o3 : List UserDoc)
    (h1 : validOrdering db none none o1) (h2 : validOrdering db none none o2)
    (h3 : validOrdering db none none o3)
    (hd : (swcMatching db none none).Pairwise (fun a b => sortKey a ≠ sortKey b))
    (h5 : (swcMatching db none none).length = 5) :
    (swcItems o1 (some 1) (some 2)).length = 2 ∧
    (swcItems o2 (some 2) (some 2)).length = 2 ∧
    (swcItems o3 (some 3) (some 2)).length = 1 ∧
    (swcItems o1 (some 1) (some 2) ++ swcItems o2 (some 2) (some 2) ++
      swcItems o3 (some 3) (some 2)).Perm (swcMatching db none none) := by
  have e21 : o2 = o1 := validOrdering_unique h2 h1 hd
  have e31 : o3 = o1 := validOrdering_unique h3 h1 hd
  rw [e21, e31]
  have hlen : o1.length = 5 := h1.1.length_eq.trans h5
  have hi1 : swcItems o1 (some 1) (some 2) = o1.take 2 := rfl
  have hi2 : swcItems o1 (some 2) (some 2) = (o1.drop 2).take 2 := rfl
  have hi3 : swcItems o1 (some 3) (some 2) = (o1.drop 4).take 2 := rfl
  have hd4 : (o1.drop 4).length = 1 := by rw [List.length_drop, hlen]
  have hkey : o1.take 2 ++ ((o1.drop 2).take 2 ++ (o1.drop 4).take 2) = o1 := by
    have ht3 : (o1.drop 4).take 2 = o1.drop 4 := by
      apply List.take_of_length_le
      rw [hd4]
      omega
    have hdd : (o1.drop 2).drop 2 = o1.drop 4 := by
      rw [List.drop_drop]
    rw [ht3, ← hdd, List.take_append_drop, List.take_append_drop]
  refine ⟨?_, ?_, ?_, ?_⟩
  · rw [hi1, List.length_take, hlen]; decide
  · rw [hi2, List.length_take, List.length_drop, hlen]; decide
  · rw [hi3, List.length_take, hd4]; decide
  · rw [hi1, hi2, hi3, List.append_assoc, hkey]
    exact h1.1


/-- Five concrete students; the second and third share the same
(lastName, firstName) key. -/
def stu (i : Nat) (ln fn : String) : UserDoc :=
  { id := "uuuuuuuuuu" ++ toString i ++ "3", firstName := fn, lastName := ln,
    email := "s" ++ toString i ++ "@x.com", clerkId := "ck" ++ toString i,
    privilege := "student", enrolledClasses := [] }

def sA : UserDoc := stu 1 "Aa" "A"
def sB1 : UserDoc := stu 2 "Bb" "B"
def sB2 : UserDoc := stu 3 "Bb" "B"
def sC : UserDoc := stu 4 "Cc" "C"
def sD : UserDoc := stu 5 "Dd" "D"

def dbC3 : DB := { users := [sA, sB1, sB2, sC, sD], classes := [] }

/-- C3 counterexample. Because the handler sorts by (lastName, firstName)
with no id tiebreak, two valid orderings of the same 5-student dataset
exist that differ on the tied pair; taking page 1 from one ordering and
page 2 from the other (as two independent requests may) yields 2+2+1 items
that repeat one tied student and omit the other — refuting deterministic
no-overlap/no-omission pagination under name collisions. -/
theorem C3_counterexample :
    validOrdering dbC3 none none [sA, sB1, sB2, sC, sD] ∧
    validOrdering dbC3 none none [sA, sB2, sB1, sC, sD] ∧
    (swcMatching dbC3 none none).length = 5 ∧
    ¬ (swcItems [sA, sB1, sB2, sC, sD] (some 1) (some 2) ++
        swcItems [sA, sB2, sB1, sC, sD] (some 2) (some 2) ++
        swcItems [sA, sB1, sB2, sC, sD] (some 3) (some 2)).Perm
      (swcMatching dbC3 none none) := by
  refine ⟨⟨?_, ?_⟩, ⟨?_, ?_⟩, ?_, ?_⟩ <;> decide

/-- Witness for C3 (amended) at a concrete 5-student dataset with pairwise
distinct names, every call observing the unique sorted ordering. -/
def dbC3d : DB :=
  { users := [sA, sB1, stu 3 "Ee" "E", sC, sD], classes := [] }

theorem C3_pagination_amended_witness :
    (swcItems [sA, sB1, sC, sD, stu 3 "Ee" "E"] (some 1) (some 2)).length = 2 ∧
    (swcItems [sA, sB1, sC, sD, stu 3 "Ee" "E"] (some 2) (some 2)).length = 2 ∧
    (swcItems [sA, sB1, sC, sD, stu 3 "Ee" "E"] (some 3) (some 2)).length = 1 ∧
    (swcItems [sA, sB1, sC, sD, stu 3 "Ee" "E"] (some 1) (some 2) ++
      swcItems [sA, sB1, sC, sD, stu 3 "Ee" "E"] (some 2) (some 2) ++
      swcItems [sA, sB1, sC, sD, stu 3 "Ee" "E"] (some 3) (some 2)).Perm
      (swcMatching dbC3d none none) :=
  C3_pagination_amended dbC3d _ _ _ ⟨by decide, by decide⟩ ⟨by decide, by decide⟩
    ⟨by decide, by decide⟩ (by decide) (by decide)
